import Mathlib

/-!
Shallow embedding of the EP_productionToolKit sequencer engine.

This file embeds the engine core of `engine.js` (bundled inside
`src/interface.js`): the harmonic resolver (`getChordIntervals`,
`applyInversion`, `applyVoicing`), the chord emitter (`sendChord`,
`sendMidiNote`), velocity resolution, the per-tick scheduler
(`scheduleNote`, `scheduler`, `advanceNote`) and the transport
operations (`start`, `stop`).

Modelling conventions:
* JS numbers are embedded as `ℤ` (integer data such as note numbers and
  velocities) or `ℚ` (times, tempo-derived durations, random draws).
* `Math.random()` draws are explicit `ℚ` parameters; each syntactic call
  site receives its own independent draw (the draws are i.i.d. uniform on
  `[0,1)`, so naming them by site instead of by sequential consumption
  order is distribution-preserving and is only used for per-draw facts).
* The Web MIDI output is a pure message trace: `MidiMsg` records the byte
  list and the optional explicit timestamp of one `midiOut.send` call.
* Advisory visual callbacks (`onStepTrigger`, `onClockTick`, `onLog`'s
  routing) do not emit MIDI and are modelled only through the log trace.
-/

namespace Engine

/-- Step symbols of a pad's 64-slot pattern: `'O'` (off), `'X'` (high),
`'Y'` (mid), `'Z'` (low) in the source. -/
inductive StepSym
  | O | X | Y | Z
deriving DecidableEq, Repr

/-- Chord qualities, the `quality` strings of the source. -/
inductive Quality
  | maj | min | dim | aug | sus2 | sus4
deriving DecidableEq, Repr

/-- Chord extensions: the source strings `'none'`, `'6'`, `'9'`, `'11'`, `'13'`. -/
inductive Ext
  | none | e6 | e9 | e11 | e13
deriving DecidableEq, Repr

/-- Chord voicings, the `voice` strings `'close'`, `'wide'`, `'open'`. -/
inductive Voice
  | close | wide | «open»
deriving DecidableEq, Repr

/-- Velocity modes: `'xyz'` (symbol-mapped), `'fixed'`, `'range'`. -/
inductive VelMode
  | xyz | fixed | range
deriving DecidableEq, Repr

/-- Play modes of a pad: `'drum'` (single note) or `'chord'`. -/
inductive PlayMode
  | drum | chord
deriving DecidableEq, Repr

/-- The Chord Spec record `{root, oct, quality, ext, inv, voice, flux}`. -/
structure ChordSpec where
  root : ℤ
  oct : ℤ
  quality : Quality
  ext : Ext
  inv : Nat
  voice : Voice
  flux : ℤ
deriving DecidableEq, Repr

/-- Source helper `clamp(n, min, max) = Math.max(min, Math.min(max, n))`. -/
def clamp (n lo hi : ℤ) : ℤ := max lo (min hi n)

/-- JavaScript `Math.round` on an exact rational: half-up rounding
(ties toward `+∞`), `Math.round(x) = ⌊x + 1/2⌋`. -/
def jsRound (q : ℚ) : ℤ := ⌊q + 1 / 2⌋

/-- Source `getChordIntervals(quality, ext)`: the interval table of the harmonic
resolver, translated line by line from the source (root, third, fifth,
then the extension block with the `'6'` case popping the seventh). -/
def getChordIntervals (quality : Quality) (ext : Ext) : List ℤ :=
  let i1 : List ℤ := [0]
  let i2 := i1 ++ (if quality = .min ∨ quality = .dim then [3]
    else if quality = .sus2 then [2]
    else if quality = .sus4 then [5]
    else [4])
  let i3 := i2 ++ (if quality = .dim then [6]
    else if quality = .aug then [8]
    else [7])
  if ext = .none then i3
  else
    let seventh0 : ℤ := if quality = .maj ∨ quality = .aug then 11 else 10
    let seventh : ℤ := if quality = .dim then 9 else seventh0
    let i4 := i3 ++ [seventh]
    let i5 := if ext = .e9 ∨ ext = .e11 ∨ ext = .e13 then i4 ++ [14] else i4
    let i6 := if ext = .e11 ∨ ext = .e13 then i5 ++ [17] else i5
    let i7 := if ext = .e13 then i6 ++ [21] else i6
    if ext = .e6 then i7.dropLast ++ [9] else i7

/-- One pass of the `applyInversion` loop body: `shift` the head and
`push` it back with `+12`.  The source never runs this on an empty list
(`getChordIntervals` always returns at least three intervals); on `[]`
we return `[]`. -/
def invStep : List ℤ → List ℤ
  | [] => []
  | x :: xs => xs ++ [x + 12]

/-- Source `applyInversion(intervals, inv)`: run the shift-and-push step
`inv` times. -/
def applyInversion (l : List ℤ) (inv : Nat) : List ℤ :=
  match inv with
  | 0 => l
  | n + 1 => applyInversion (invStep l) n

/-- Source `applyVoicing(intervals, voice)`: `close` unchanged, `wide` adds 12 to
the second interval when present, `open` adds 12 to the second and 24 to
the third when present (the source's length guards become pattern
matches). -/
def applyVoicing (intervals : List ℤ) (voice : Voice) : List ℤ :=
  match voice, intervals with
  | .close, l => l
  | .wide, a :: b :: rest => a :: (b + 12) :: rest
  | .wide, l => l
  | .«open», a :: b :: c :: rest => a :: (b + 12) :: (c + 24) :: rest
  | .«open», [a, b] => [a, b + 12]
  | .«open», l => l

/- ------------------------------------------------------------------ -/
/-  C1: the interval table                                             -/
/- ------------------------------------------------------------------ -/

/-- C1 counterexample. The claimed entry `(major, "6") = [0,4,9]`
is false: the source pops the seventh from `[0,4,7,11]` and pushes `9`,
keeping the fifth, so the table yields `[0,4,7,9]`. -/
theorem getChordIntervals_maj6_counterexample :
    getChordIntervals .maj .e6 = [0, 4, 7, 9]
    ∧ getChordIntervals .maj .e6 ≠ [0, 4, 9] := by
  refine ⟨by decide, by decide⟩

/-- C1 amended. The Harmonic Resolver's interval table returns
exactly `[0,4,7]` for (major, none), `[0,3,7]` for (minor, none),
`[0,3,6]` for (diminished, none), `[0,4,7,11,14]` for (major, "9"), and
`[0,4,7,9]` for (major, "6") — the seventh replaced by the sixth, the
fifth retained. -/
theorem getChordIntervals_table :
    getChordIntervals .maj .none = [0, 4, 7]
    ∧ getChordIntervals .min .none = [0, 3, 7]
    ∧ getChordIntervals .dim .none = [0, 3, 6]
    ∧ getChordIntervals .maj .e9 = [0, 4, 7, 11, 14]
    ∧ getChordIntervals .maj .e6 = [0, 4, 7, 9] := by
  refine ⟨rfl, rfl, rfl, rfl, by decide⟩

/- ------------------------------------------------------------------ -/
/-  C9: inversion is cyclic modulo 12                                  -/
/- ------------------------------------------------------------------ -/

/-- One inversion step preserves the multiset of pitch classes. -/
theorem invStep_mod12 (l : List ℤ) :
    ((invStep l).map (fun x => x % 12)).Perm (l.map (fun x => x % 12)) := by
  cases l with
  | nil => simp [invStep]
  | cons x xs =>
    have h12 : (x + 12) % 12 = x % 12 := by omega
    simp only [invStep, List.map_append, List.map_cons, List.map_nil, h12]
    exact List.perm_append_singleton _ _

/-- Any number of inversion steps preserves the multiset of pitch
classes. -/
theorem applyInversion_mod12 (l : List ℤ) (k : Nat) :
    ((applyInversion l k).map (fun x => x % 12)).Perm (l.map (fun x => x % 12)) := by
  induction k generalizing l with
  | zero => simp [applyInversion]
  | succ n ih =>
    simp only [applyInversion]
    exact (ih (invStep l)).trans (invStep_mod12 l)

/-- C9. For every chord interval list (an output of the interval
table) and every `k ∈ [0,3]`, applying inversion `k` and then inversion
`(4−k) % 4` yields a list whose multiset of values mod 12 equals that of
the original list: every note returns to its pitch class, though the
absolute octave may differ. -/
theorem inversion_cyclic (q : Quality) (e : Ext) (k : Nat) (_hk : k ≤ 3) :
    (((applyInversion (applyInversion (getChordIntervals q e) k) ((4 - k) % 4)).map
        (fun x => x % 12) : Multiset ℤ))
      = ((getChordIntervals q e).map (fun x => x % 12) : Multiset ℤ) := by
  exact Multiset.coe_eq_coe.mpr
    ((applyInversion_mod12 _ _).trans (applyInversion_mod12 _ _))

/-- Witness for C9 at `(major, none)`, `k = 1`. -/
theorem inversion_cyclic_witness :
    1 ≤ 3
    ∧ (((applyInversion (applyInversion (getChordIntervals .maj .none) 1) ((4 - 1) % 4)).map
        (fun x => x % 12) : Multiset ℤ))
      = ((getChordIntervals .maj .none).map (fun x => x % 12) : Multiset ℤ) :=
  ⟨by decide, inversion_cyclic .maj .none 1 (by decide)⟩

/- ------------------------------------------------------------------ -/
/-  Messages, pads, randomness                                         -/
/- ------------------------------------------------------------------ -/

/-- One `midiOut.send(bytes, timestamp?)` call: the byte list and the
optional explicit delivery timestamp (in `performance.now()`
milliseconds). -/
structure MidiMsg where
  bytes : List ℤ
  ts : Option ℚ
deriving DecidableEq, Repr

/-- A pad record of `projectData` (the fields the engine reads; the
unused automation fields `auto`/`autoTargetCC` and the constant `steps`
are omitted). `notes` holds the 64 step symbols. -/
structure Pad where
  notes : List StepSym
  midiNote : ℤ
  gateMs : ℚ
  velMode : VelMode
  velA : ℤ
  velB : ℤ
  muted : Bool
  mode : PlayMode
  chord : ChordSpec
deriving DecidableEq, Repr

/-- Source `PAD_NOTES`: default base notes of the 12 pads. -/
def PAD_NOTES : List ℤ := [36, 37, 38, 39, 40, 41, 42, 43, 44, 45, 46, 47]

/-- The default pad built by the `SequencerEngine` constructor for pad
index `p`. -/
def mkDefaultPad (p : Nat) : Pad where
  notes := List.replicate 64 .O
  midiNote := PAD_NOTES.getD p 36
  gateMs := 100
  velMode := .xyz
  velA := 110
  velB := 125
  muted := false
  mode := .drum
  chord := { root := 0, oct := 3, quality := .maj, ext := .none, inv := 0,
             voice := .close, flux := 0 }

/-- The four uniform draws that one `sendChord` call can consume in its
flux block, in source order: `r1` the perturbation gate, `r2` the
inversion-advance coin, `r3` the octave-shift gate, `r4` the shift
direction coin. -/
structure FluxDraws where
  r1 : ℚ
  r2 : ℚ
  r3 : ℚ
  r4 : ℚ
deriving DecidableEq, Repr

/-- The flux-perturbation block of `sendChord`
(`if (fluxVal > 0 && Math.random() < fluxVal) { ... }`), returning the
perturbed inversion count and base note.  `fluxVal = flux / 100`. -/
def fluxStep (flux : ℤ) (inv : Nat) (baseNote : ℤ) (d : FluxDraws) : Nat × ℤ :=
  let fluxVal : ℚ := (flux : ℚ) / 100
  if 0 < fluxVal ∧ d.r1 < fluxVal then
    ((if 1 / 2 < d.r2 then (inv + 1) % 4 else inv),
     (if 3 / 5 < fluxVal ∧ 4 / 5 < d.r3 then
        (if 1 / 2 < d.r4 then baseNote + 12 else baseNote - 12)
      else baseNote))
  else (inv, baseNote)

/-- Source `sendMidiNote(chan, note, vel, duration, timestamp)`: a note-on at
`timestamp` and a note-off at `timestamp + duration`; a no-op when no
output is connected. -/
def sendMidiNote (connected : Bool) (chan : Nat) (note vel : ℤ) (duration timestamp : ℚ) :
    List MidiMsg :=
  if connected then
    [⟨[0x90 + (chan : ℤ), note, vel], some timestamp⟩,
     ⟨[0x80 + (chan : ℤ), note, 0], some (timestamp + duration)⟩]
  else []

/-- Source `sendChord(pad, chan, baseVel, timestamp)`: resolve the interval
table, apply the flux perturbation (draws `d`), then inversion and
voicing, and emit one strummed, velocity-varied note pair per interval.
`vr i` is the uniform draw for the `i`-th note's velocity variation. -/
def sendChord (connected : Bool) (pad : Pad) (chan : Nat) (baseVel : ℤ) (timestamp : ℚ)
    (d : FluxDraws) (vr : Nat → ℚ) : List MidiMsg :=
  if connected then
    let baseNote0 : ℤ := (pad.chord.oct + 1) * 12 + pad.chord.root
    let fluxVal : ℚ := (pad.chord.flux : ℚ) / 100
    let ib := fluxStep pad.chord.flux pad.chord.inv baseNote0 d
    let intervals := applyVoicing (applyInversion
      (getChordIntervals pad.chord.quality pad.chord.ext) ib.1) pad.chord.voice
    intervals.enum.flatMap (fun q =>
      sendMidiNote connected chan (ib.2 + q.2)
        (clamp (jsRound ((baseVel : ℚ) + (vr q.1 - 1 / 2) * fluxVal * 40)) 1 127)
        pad.gateMs
        (timestamp + (q.1 : ℚ) * (5 + fluxVal * 20)))
  else []

/-- The note numbers of the note-on messages in a trace (status
`0x90 + ch` with `ch < 16`, nonzero velocity). -/
def noteOnNotes (msgs : List MidiMsg) : List ℤ :=
  msgs.filterMap (fun m => match m.bytes with
    | [st, n, v] => if 0x90 ≤ st ∧ st < 0xA0 ∧ v ≠ 0 then some n else none
    | _ => none)

/-- The velocity-resolution block of `scheduleNote`: symbol map
(X→120, Y→85, Z→50, anything else→50), `fixed` uses `velA`, `range`
draws `lo + ⌊r·(hi−lo+1)⌋`; the result is rounded and clamped to
`[1,127]`.  `r` is the uniform draw. -/
def resolveVelocity (mode : VelMode) (sym : StepSym) (velA velB : ℤ) (r : ℚ) : ℤ :=
  let vel0 : ℚ := if sym = .X then 120 else if sym = .Y then 85 else 50
  let vel : ℚ :=
    match mode with
    | .fixed => (velA : ℚ)
    | .range =>
        let lo := min velA velB
        let hi := max velA velB
        ((lo : ℚ) + (⌊r * ((hi : ℚ) - (lo : ℚ) + 1)⌋ : ℤ))
    | .xyz => vel0
  clamp (jsRound vel) 1 127

/- ------------------------------------------------------------------ -/
/-  C8: resolved velocity is always in [1,127]                         -/
/- ------------------------------------------------------------------ -/

/-- C8. For every pad velocity mode, step symbol and outcome of the
uniform draw — and for velocity parameters `velA`, `velB` that may lie
outside `[1,127]` — the velocity resolved during per-tick scheduling is
an integer in `[1,127]`. -/
theorem velocity_in_range (mode : VelMode) (sym : StepSym) (velA velB : ℤ) (r : ℚ)
    (_h0 : 0 ≤ r) (_h1 : r < 1) :
    1 ≤ resolveVelocity mode sym velA velB r
    ∧ resolveVelocity mode sym velA velB r ≤ 127 := by
  unfold resolveVelocity clamp
  exact ⟨le_max_left _ _, max_le (by norm_num) (min_le_left _ _)⟩

/-- Witness for C8: `range` mode with `velA = 300`, `velB = -5` (both
outside `[1,127]`) and draw `1/3`. -/
theorem velocity_in_range_witness :
    0 ≤ (1 / 3 : ℚ) ∧ (1 / 3 : ℚ) < 1
    ∧ (1 ≤ resolveVelocity .range .X 300 (-5) (1 / 3)
       ∧ resolveVelocity .range .X 300 (-5) (1 / 3) ≤ 127) :=
  ⟨by norm_num, by norm_num, velocity_in_range .range .X 300 (-5) (1 / 3) (by norm_num) (by norm_num)⟩


/- ------------------------------------------------------------------ -/
/-  The note-on trace of a chord emission                              -/
/- ------------------------------------------------------------------ -/

/-- Each `sendMidiNote` pair in a chord emission contributes exactly its
note-on's note number to `noteOnNotes`: the note-on status `0x90 + chan`
is in note-on range for `chan < 16` and its clamped velocity is nonzero,
while the note-off (status `0x80 + chan`, velocity 0) is dropped. -/
theorem noteOnNotes_chordEmit (chan : Nat) (hchan : chan < 16) (base baseVel : ℤ)
    (gate ts fluxVal : ℚ) (vr : Nat → ℚ) :
    ∀ l : List (Nat × ℤ),
      noteOnNotes (l.flatMap (fun q =>
        sendMidiNote true chan (base + q.2)
          (clamp (jsRound ((baseVel : ℚ) + (vr q.1 - 1 / 2) * fluxVal * 40)) 1 127)
          gate (ts + (q.1 : ℚ) * (5 + fluxVal * 20))))
        = l.map (fun q => base + q.2) := by
  intro l
  induction l with
  | nil => rfl
  | cons q rest ih =>
    have hc : (chan : ℤ) < 16 := by exact_mod_cast hchan
    have hc0 : (0 : ℤ) ≤ (chan : ℤ) := Int.natCast_nonneg chan
    have hvel : (1 : ℤ) ≤ clamp (jsRound ((baseVel : ℚ) + (vr q.1 - 1 / 2) * fluxVal * 40)) 1 127 :=
      le_max_left _ _
    simp only [List.flatMap_cons, noteOnNotes, List.filterMap_append, sendMidiNote, if_pos,
      List.filterMap_cons, List.map_cons] at *
    rw [if_pos ⟨by omega, by omega, by omega⟩, if_neg (by rintro ⟨-, -, h⟩; exact h rfl)]
    simpa using ih

/-- Mapping a function of the value over an enumerated list equals
mapping it over the list itself. -/
theorem enumFrom_map_add (base : ℤ) : ∀ (n : Nat) (l : List ℤ),
    ((l.enumFrom n).map (fun q => base + q.2)) = l.map (fun iv => base + iv)
  | _, [] => rfl
  | n, x :: xs => by
    simp only [List.enumFrom, List.map_cons]
    exact congrArg _ (enumFrom_map_add base (n + 1) xs)

/-- The note-on note numbers emitted by `sendChord` are the flux-perturbed
base note plus each interval of the voiced, inverted (with the
flux-perturbed inversion count) interval list: the flux perturbation acts
before inversion and voicing. -/
theorem noteOnNotes_sendChord (pad : Pad) (chan : Nat) (baseVel : ℤ) (ts : ℚ)
    (d : FluxDraws) (vr : Nat → ℚ) (hchan : chan < 16) :
    noteOnNotes (sendChord true pad chan baseVel ts d vr)
      = (applyVoicing (applyInversion (getChordIntervals pad.chord.quality pad.chord.ext)
            (fluxStep pad.chord.flux pad.chord.inv
              ((pad.chord.oct + 1) * 12 + pad.chord.root) d).1)
          pad.chord.voice).map
        (fun iv => (fluxStep pad.chord.flux pad.chord.inv
              ((pad.chord.oct + 1) * 12 + pad.chord.root) d).2 + iv) := by
  rw [show sendChord true pad chan baseVel ts d vr
      = ((applyVoicing (applyInversion (getChordIntervals pad.chord.quality pad.chord.ext)
            (fluxStep pad.chord.flux pad.chord.inv
              ((pad.chord.oct + 1) * 12 + pad.chord.root) d).1)
          pad.chord.voice).enum).flatMap (fun q =>
            sendMidiNote true chan ((fluxStep pad.chord.flux pad.chord.inv
                ((pad.chord.oct + 1) * 12 + pad.chord.root) d).2 + q.2)
              (clamp (jsRound ((baseVel : ℚ)
                  + (vr q.1 - 1 / 2) * ((pad.chord.flux : ℚ) / 100) * 40)) 1 127)
              pad.gateMs
              (ts + (q.1 : ℚ) * (5 + ((pad.chord.flux : ℚ) / 100) * 20)))
      from rfl]
  rw [noteOnNotes_chordEmit chan hchan]
  exact enumFrom_map_add _ 0 _

/- ------------------------------------------------------------------ -/
/-  C10: sendChord can emit note numbers above 127                     -/
/- ------------------------------------------------------------------ -/

/-- The Chord Spec of C10's example: root 11, octave 6, major quality,
extension "13", inversion 3, open voicing, flux 0 — every field inside
its documented range. -/
def overflowPad : Pad :=
  { mkDefaultPad 0 with
    mode := .chord,
    chord := { root := 11, oct := 6, quality := .maj, ext := .e13, inv := 3,
               voice := .«open», flux := 0 } }

/-- C10. `sendChord` never clamps or range-checks the emitted note
numbers: for the in-range Chord Spec of `overflowPad` (root 11, octave 6,
extension "13", open voicing, inversion 3, flux 0) it emits a note-on
whose note number 136 exceeds the 0–127 protocol range. -/
theorem sendChord_note_overflow :
    127 < (136 : ℤ)
    ∧ (136 : ℤ) ∈ noteOnNotes (sendChord true overflowPad 0 110 0 ⟨0, 0, 0, 0⟩ (fun _ => 0)) := by
  refine ⟨by norm_num, ?_⟩
  rw [noteOnNotes_sendChord _ _ _ _ _ _ (by norm_num)]
  have hfs : fluxStep overflowPad.chord.flux overflowPad.chord.inv
      ((overflowPad.chord.oct + 1) * 12 + overflowPad.chord.root) ⟨0, 0, 0, 0⟩ = (3, 95) := by
    simp only [overflowPad, mkDefaultPad, fluxStep]
    norm_num
  rw [hfs]
  decide

/- ------------------------------------------------------------------ -/
/-  C2: the flux perturbation in sendChord                             -/
/- ------------------------------------------------------------------ -/

/-- Reduction of `fluxStep` when the perturbation gate fires. -/
theorem fluxStep_eq (flux : ℤ) (inv : Nat) (base : ℤ) (d : FluxDraws)
    (h : 0 < (flux : ℚ) / 100 ∧ d.r1 < (flux : ℚ) / 100) :
    fluxStep flux inv base d
      = ((if 1 / 2 < d.r2 then (inv + 1) % 4 else inv),
         (if 3 / 5 < (flux : ℚ) / 100 ∧ 4 / 5 < d.r3 then
            (if 1 / 2 < d.r4 then base + 12 else base - 12)
          else base)) := by
  simp only [fluxStep]
  rw [if_pos h]

/-- Reduction of `fluxStep` when the perturbation gate does not fire. -/
theorem fluxStep_eq_not (flux : ℤ) (inv : Nat) (base : ℤ) (d : FluxDraws)
    (h : ¬(0 < (flux : ℚ) / 100 ∧ d.r1 < (flux : ℚ) / 100)) :
    fluxStep flux inv base d = (inv, base) := by
  simp only [fluxStep]
  rw [if_neg h]

/-- C2 counterexample. The octave-shift branch of the flux
perturbation fires on the draws `r3` in `(4/5, 1)` — an event of
probability 1/5 (20%) under the uniform draw on `[0,1)` — not 4/5 (80%)
as claimed: at `flux = 100`, `inv = 0`, `baseNote = 60`, with the other
draws fixed to make the shift visible, the set of shifting draws is
exactly `Ioo (4/5) 1`, whose length `1 − 4/5` is `1/5 ≠ 4/5`. -/
theorem flux_octave_chance_counterexample :
    {r3 : ℚ | 0 ≤ r3 ∧ r3 < 1 ∧ (fluxStep 100 0 60 ⟨0, 0, r3, 1⟩).2 ≠ 60}
      = Set.Ioo (4 / 5 : ℚ) 1
    ∧ (1 : ℚ) - 4 / 5 = 1 / 5
    ∧ ¬((1 : ℚ) - 4 / 5 = 4 / 5) := by
  refine ⟨?_, by norm_num, by norm_num⟩
  ext r3
  simp only [Set.mem_setOf_eq, Set.mem_Ioo]
  rw [fluxStep_eq 100 0 60 ⟨0, 0, r3, 1⟩ ⟨by norm_num, by norm_num⟩]
  by_cases hr : (4 / 5 : ℚ) < r3
  · norm_num [hr]
    intro _
    linarith
  · norm_num [hr]

/-- C2 amended. In `sendChord`, over the explicit uniform draws on
`[0,1)`, the randomized flux perturbation behaves as: the perturbation
fires exactly on the draws `r1 < flux%` (an event of probability
`flux%`); within a perturbation the inversion advances one step (mod 4)
exactly on `r2 ∈ (1/2, 1)` (a 50% event); if `flux% > 60` the base note
is shifted by a full octave exactly on `r3 ∈ (4/5, 1)` (a 20% event, not
80%), the direction `±12` chosen by the coin `r4`; and the perturbation
is applied before inversion and voicing: the emitted note-on numbers are
the perturbed base note plus the voiced, inverted intervals computed from
the perturbed inversion count. -/
theorem sendChord_flux_behavior (flux : ℤ) (inv : Nat) (base : ℤ)
    (pad : Pad) (chan : Nat) (baseVel : ℤ) (ts : ℚ) (d : FluxDraws) (vr : Nat → ℚ)
    (hf0 : 0 < flux) (hf1 : flux ≤ 100) (hchan : chan < 16) :
    {r1 : ℚ | 0 ≤ r1 ∧ r1 < 1 ∧ fluxStep flux inv base ⟨r1, 1, 0, 0⟩ ≠ (inv, base)}
        = Set.Ico 0 ((flux : ℚ) / 100)
    ∧ (∀ r2 : ℚ, (fluxStep flux inv base ⟨0, r2, 0, 0⟩).1
        = if 1 / 2 < r2 then (inv + 1) % 4 else inv)
    ∧ {r2 : ℚ | 0 ≤ r2 ∧ r2 < 1 ∧ (fluxStep flux inv base ⟨0, r2, 0, 0⟩).1 ≠ inv}
        = Set.Ioo (1 / 2) 1
    ∧ (60 < flux →
        {r3 : ℚ | 0 ≤ r3 ∧ r3 < 1 ∧ (fluxStep flux inv base ⟨0, 0, r3, 1⟩).2 ≠ base}
          = Set.Ioo (4 / 5) 1)
    ∧ (60 < flux → ∀ r4 : ℚ, (fluxStep flux inv base ⟨0, 0, 9 / 10, r4⟩).2
        = if 1 / 2 < r4 then base + 12 else base - 12)
    ∧ noteOnNotes (sendChord true pad chan baseVel ts d vr)
        = (applyVoicing (applyInversion (getChordIntervals pad.chord.quality pad.chord.ext)
              (fluxStep pad.chord.flux pad.chord.inv
                ((pad.chord.oct + 1) * 12 + pad.chord.root) d).1)
            pad.chord.voice).map
          (fun iv => (fluxStep pad.chord.flux pad.chord.inv
                ((pad.chord.oct + 1) * 12 + pad.chord.root) d).2 + iv) := by
  have hq0 : (0 : ℚ) < (flux : ℚ) / 100 := by
    have : (0 : ℚ) < (flux : ℚ) := by exact_mod_cast hf0
    linarith
  have hq1 : (flux : ℚ) / 100 ≤ 1 := by
    have : (flux : ℚ) ≤ 100 := by exact_mod_cast hf1
    linarith
  have hinv : (inv + 1) % 4 ≠ inv := by omega
  refine ⟨?_, ?_, ?_, ?_, ?_, ?_⟩
  · ext r1
    simp only [Set.mem_setOf_eq, Set.mem_Ico]
    by_cases hr : r1 < (flux : ℚ) / 100
    · rw [fluxStep_eq flux inv base ⟨r1, 1, 0, 0⟩ ⟨hq0, hr⟩]
      norm_num [hr, Prod.ext_iff, hinv]
      intro _
      linarith
    · rw [fluxStep_eq_not flux inv base ⟨r1, 1, 0, 0⟩ (by rintro ⟨-, h⟩; exact hr h)]
      simp [hr]
  · intro r2
    rw [fluxStep_eq flux inv base ⟨0, r2, 0, 0⟩ ⟨hq0, hq0⟩]
  · ext r2
    simp only [Set.mem_setOf_eq, Set.mem_Ioo]
    rw [fluxStep_eq flux inv base ⟨0, r2, 0, 0⟩ ⟨hq0, hq0⟩]
    by_cases hr : (1 / 2 : ℚ) < r2
    · norm_num [hr, hinv]
      intro _
      linarith
    · norm_num [hr]
  · intro h60
    have hq60 : (3 / 5 : ℚ) < (flux : ℚ) / 100 := by
      have : (60 : ℚ) < (flux : ℚ) := by exact_mod_cast h60
      linarith
    ext r3
    simp only [Set.mem_setOf_eq, Set.mem_Ioo]
    rw [fluxStep_eq flux inv base ⟨0, 0, r3, 1⟩ ⟨hq0, hq0⟩]
    by_cases hr : (4 / 5 : ℚ) < r3
    · norm_num [hr, hq60]
      intro _
      linarith
    · norm_num [hr, hq60]
  · intro h60 r4
    have hq60 : (3 / 5 : ℚ) < (flux : ℚ) / 100 := by
      have : (60 : ℚ) < (flux : ℚ) := by exact_mod_cast h60
      linarith
    rw [fluxStep_eq flux inv base ⟨0, 0, 9 / 10, r4⟩ ⟨hq0, hq0⟩]
    norm_num [hq60]
  · exact noteOnNotes_sendChord pad chan baseVel ts d vr hchan

/-- Witness for C2 (amended) at `flux = 100`, `inv = 0`, `base = 60`,
the default pad, channel 0, base velocity 110. -/
theorem sendChord_flux_behavior_witness :
    (0 : ℤ) < 100 ∧ (100 : ℤ) ≤ 100 ∧ (0 : Nat) < 16
    ∧ ({r1 : ℚ | 0 ≤ r1 ∧ r1 < 1 ∧ fluxStep 100 0 60 ⟨r1, 1, 0, 0⟩ ≠ (0, 60)}
          = Set.Ico 0 (((100 : ℤ) : ℚ) / 100)
       ∧ (∀ r2 : ℚ, (fluxStep 100 0 60 ⟨0, r2, 0, 0⟩).1
           = if 1 / 2 < r2 then (0 + 1) % 4 else 0)
       ∧ {r2 : ℚ | 0 ≤ r2 ∧ r2 < 1 ∧ (fluxStep 100 0 60 ⟨0, r2, 0, 0⟩).1 ≠ 0}
           = Set.Ioo (1 / 2) 1
       ∧ (60 < (100 : ℤ) →
           {r3 : ℚ | 0 ≤ r3 ∧ r3 < 1 ∧ (fluxStep 100 0 60 ⟨0, 0, r3, 1⟩).2 ≠ 60}
             = Set.Ioo (4 / 5) 1)
       ∧ (60 < (100 : ℤ) → ∀ r4 : ℚ, (fluxStep 100 0 60 ⟨0, 0, 9 / 10, r4⟩).2
           = if 1 / 2 < r4 then 60 + 12 else 60 - 12)
       ∧ noteOnNotes (sendChord true (mkDefaultPad 0) 0 110 0 ⟨0, 0, 0, 0⟩ (fun _ => 0))
           = (applyVoicing (applyInversion
                 (getChordIntervals (mkDefaultPad 0).chord.quality (mkDefaultPad 0).chord.ext)
                 (fluxStep (mkDefaultPad 0).chord.flux (mkDefaultPad 0).chord.inv
                   (((mkDefaultPad 0).chord.oct + 1) * 12 + (mkDefaultPad 0).chord.root)
                   ⟨0, 0, 0, 0⟩).1)
               (mkDefaultPad 0).chord.voice).map
             (fun iv => (fluxStep (mkDefaultPad 0).chord.flux (mkDefaultPad 0).chord.inv
                   (((mkDefaultPad 0).chord.oct + 1) * 12 + (mkDefaultPad 0).chord.root)
                   ⟨0, 0, 0, 0⟩).2 + iv)) :=
  ⟨by norm_num, by norm_num, by norm_num,
   sendChord_flux_behavior 100 0 60 (mkDefaultPad 0) 0 110 0 ⟨0, 0, 0, 0⟩ (fun _ => 0)
     (by norm_num) (by norm_num) (by norm_num)⟩

/- ------------------------------------------------------------------ -/
/-  The sequencer engine state and its operations                      -/
/- ------------------------------------------------------------------ -/

/-- The per-tick uniform draws consumed by `scheduleNote`, indexed by
call site: `jitter` for the humanize draw, `velDraw g p` for pad
`(g, p)`'s ranged-velocity draw, `chordDraw g p` for its flux block,
`chordVelDraw g p i` for its `i`-th chord note's velocity variation. -/
structure RandSrc where
  jitter : ℚ
  velDraw : Nat → Nat → ℚ
  chordDraw : Nat → Nat → FluxDraws
  chordVelDraw : Nat → Nat → Nat → ℚ

/-- The mutable fields of `SequencerEngine`.  `midiOut` and `audioCtx`
are presence flags for the output sink and the clock source; `timerID`
records whether a re-invocation is pending. -/
structure EngineState where
  midiOut : Bool
  audioCtx : Bool
  isPlaying : Bool
  nextNoteTime : ℚ
  current16thNote : Nat
  timerID : Bool
  scheduleAheadTime : ℚ
  bpm : ℚ
  swing : ℚ
  humanize : Bool
  sendTransport : Bool
  suppressTransport : Bool
  globalBars : Nat
  projectData : List (List Pad)
deriving DecidableEq, Repr

/-- The emission trace of one engine operation: the `(beatNumber, time)`
arguments of every `scheduleNote` call, the MIDI messages sent, and the
log lines. -/
structure Emit where
  ticks : List (Nat × ℚ) := []
  msgs : List MidiMsg := []
  logs : List String := []
deriving DecidableEq, Repr

/-- Source `stop()`: clear the playing flag, cancel the pending re-invocation,
then — when an output is connected — optionally send the transport-stop
message `0xFC` and send all-notes-off (`0xB0+ch, 123, 0`) on the four
channels; finally clear the one-shot suppress flag and log `HALTED`. -/
def stop (s : EngineState) : EngineState × List MidiMsg × List String :=
  let msgs :=
    if s.midiOut then
      (if s.sendTransport && !s.suppressTransport then [(⟨[0xFC], Option.none⟩ : MidiMsg)] else [])
        ++ (List.range 4).map (fun ch => (⟨[0xB0 + (ch : ℤ), 123, 0], Option.none⟩ : MidiMsg))
    else []
  ({ s with isPlaying := false, timerID := false, suppressTransport := false }, msgs, ["HALTED"])

/-- Source `advanceNote()`: `nextNoteTime += (60/bpm) * 0.25` and
`current16thNote++`. -/
def advanceNote (s : EngineState) : EngineState :=
  { s with nextNoteTime := s.nextNoteTime + (60 / s.bpm) * 0.25,
           current16thNote := s.current16thNote + 1 }

/-- The musical timestamp of a tick: nominal `time`, plus the swing
delay `((60/bpm)/4) * (swing/100)` on ticks whose index is not even (the
source's misnamed `isEven` flag), plus the humanize jitter
`Math.random() * 0.015` when enabled (`jit` is the uniform draw). -/
def exactTime (time : ℚ) (beatNumber : Nat) (bpm swing : ℚ) (humanize : Bool) (jit : ℚ) : ℚ :=
  let swingDelay := if beatNumber % 2 ≠ 0 then ((60 / bpm) / 4) * (swing / 100) else 0
  let humanJitter := if humanize then jit * 0.015 else 0
  time + swingDelay + humanJitter

/-- The six clock pulses of one tick: `0xF8` messages at the nominal
tick time plus `i * pulseInterval`, translated into the sink's
`performance.now()` domain (`pnow`/`anow` are the values of
`performance.now()` and `audioCtx.currentTime` read during the call). -/
def clockPulses (bpm : ℚ) (time pnow anow : ℚ) : List MidiMsg :=
  let secondsPer16th := (60 / bpm) * 0.25
  let pulseInterval := secondsPer16th / 6
  (List.range 6).map (fun i =>
    ⟨[0xF8], some (pnow + ((time + (i : ℚ) * pulseInterval) - anow) * 1000)⟩)

/-- The pad loop of `scheduleNote`: for each of the 4 groups × 12 pads,
read the step symbol at `beatNumber % 64`, skip `O` or muted pads, resolve
the velocity, and dispatch a chord or a plain note at the musical
timestamp. -/
def padMsgs (s : EngineState) (rs : RandSrc) (beatNumber : Nat) (midiTimestamp : ℚ) :
    List MidiMsg :=
  (List.range 4).flatMap (fun g =>
    (List.range 12).flatMap (fun p =>
      let pad := (s.projectData.getD g []).getD p (mkDefaultPad p)
      let noteChar := pad.notes.getD (beatNumber % 64) .O
      if noteChar = .O ∨ pad.muted = true then []
      else
        let vel := resolveVelocity pad.velMode noteChar pad.velA pad.velB (rs.velDraw g p)
        if pad.mode = .chord then
          sendChord s.midiOut pad g vel midiTimestamp (rs.chordDraw g p) (rs.chordVelDraw g p)
        else
          sendMidiNote s.midiOut g pad.midiNote vel pad.gateMs midiTimestamp))

/-- Source `scheduleNote(beatNumber, time)`: the six clock pulses (when
connected), then the pad messages at the musical timestamp translated
into the sink's time domain. -/
def scheduleNote (s : EngineState) (rs : RandSrc) (beatNumber : Nat) (time pnow anow : ℚ) :
    List MidiMsg :=
  (if s.midiOut then clockPulses s.bpm time pnow anow else [])
    ++ padMsgs s rs beatNumber
        (pnow + (exactTime time beatNumber s.bpm s.swing s.humanize rs.jitter - anow) * 1000)

/-- One invocation of the `scheduler()` loop.  `now` is the value of
`audioCtx.currentTime` (held fixed across the iterations of this
invocation), `pnow` of `performance.now()`; `rss` supplies each tick's
draws and `fuel` bounds the number of loop iterations (the source loop
terminates because `advanceNote` strictly increases `nextNoteTime`).
When the lookahead window is exhausted, the re-invocation is re-armed
(`timerID`) exactly when still playing. -/
def schedulerLoop (s : EngineState) (now pnow : ℚ) (rss : Nat → RandSrc) (fuel : Nat) :
    EngineState × Emit :=
  match fuel with
  | 0 => (s, {})
  | fuel + 1 =>
    if s.nextNoteTime < now + s.scheduleAheadTime then
      if s.globalBars * 16 ≤ s.current16thNote then
        let r := stop s
        (r.1, { msgs := r.2.1, logs := r.2.2 ++ ["COMPLETE"] })
      else
        let tickMsgs := scheduleNote s (rss s.current16thNote) s.current16thNote s.nextNoteTime pnow now
        let r := schedulerLoop (advanceNote s) now pnow rss fuel
        (r.1, { ticks := (s.current16thNote, s.nextNoteTime) :: r.2.ticks,
                msgs := tickMsgs ++ r.2.msgs, logs := r.2.logs })
    else
      (if s.isPlaying then { s with timerID := true } else s, {})

/-- Source `start()`: reject with a log line when the sink or clock is missing;
otherwise perform an implicit `stop`, reset the counter and next-tick
time to `now + 0.1`, optionally send transport-start `0xFA`, log, and run
the scheduler loop. -/
def start (s : EngineState) (now pnow : ℚ) (rss : Nat → RandSrc) (fuel : Nat) :
    EngineState × Emit :=
  if !s.midiOut || !s.audioCtx then
    (s, { logs := ["ERR: INIT MIDI FIRST"] })
  else
    let r0 := stop s
    let s1 := { r0.1 with isPlaying := true, current16thNote := 0, nextNoteTime := now + 0.1 }
    let startMsg :=
      if s1.sendTransport && !s1.suppressTransport then [(⟨[0xFA], Option.none⟩ : MidiMsg)] else []
    let r := schedulerLoop s1 now pnow rss fuel
    (r.1, { ticks := r.2.ticks, msgs := r0.2.1 ++ startMsg ++ r.2.msgs,
            logs := r0.2.2 ++ ["ROLLING..."] ++ r.2.logs })

/- ------------------------------------------------------------------ -/
/-  C3: stop emits exactly 4 all-notes-off messages                    -/
/- ------------------------------------------------------------------ -/

/-- Recognizes an all-notes-off control change: `[0xB0+ch, 123, 0]` with
a channel-voice status in the control-change range. -/
def isAllNotesOff (m : MidiMsg) : Bool :=
  match m.bytes with
  | [st, c, v] => decide (0xB0 ≤ st) && decide (st < 0xC0) && decide (c = 123) && decide (v = 0)
  | _ => false

/-- C3. `stop()` while Running (with a connected sink) emits exactly
4 all-notes-off control changes — `[0xB0+ch, 123, 0]` for channels
0, 1, 2, 3 in order, regardless of the other transport settings — and
clears the one-shot suppress-transport flag. -/
theorem stop_allNotesOff (s : EngineState) (_hp : s.isPlaying = true) (hc : s.midiOut = true) :
    ((stop s).2.1.filter (fun m => isAllNotesOff m))
      = [⟨[0xB0, 123, 0], Option.none⟩, ⟨[0xB1, 123, 0], Option.none⟩,
         ⟨[0xB2, 123, 0], Option.none⟩, ⟨[0xB3, 123, 0], Option.none⟩]
    ∧ (stop s).1.suppressTransport = false := by
  refine ⟨?_, rfl⟩
  cases hst : s.sendTransport <;> cases hsu : s.suppressTransport <;>
    simp only [stop, hc, hst, hsu] <;> decide

/-- Witness for C3 at a concrete connected, playing state. -/
theorem stop_allNotesOff_witness :
    (⟨true, true, true, 0, 0, true, 1/10, 120, 0, false, true, false, 4, []⟩ :
        EngineState).isPlaying = true
    ∧ (⟨true, true, true, 0, 0, true, 1/10, 120, 0, false, true, false, 4, []⟩ :
        EngineState).midiOut = true
    ∧ (((stop ⟨true, true, true, 0, 0, true, 1/10, 120, 0, false, true, false, 4, []⟩).2.1.filter
          (fun m => isAllNotesOff m))
        = [⟨[0xB0, 123, 0], Option.none⟩, ⟨[0xB1, 123, 0], Option.none⟩,
           ⟨[0xB2, 123, 0], Option.none⟩, ⟨[0xB3, 123, 0], Option.none⟩]
      ∧ (stop ⟨true, true, true, 0, 0, true, 1/10, 120, 0, false, true, false, 4, []⟩).1.suppressTransport
          = false) :=
  ⟨rfl, rfl, stop_allNotesOff _ rfl rfl⟩

/- ------------------------------------------------------------------ -/
/-  C4: start with no connected sink is a rejected no-op               -/
/- ------------------------------------------------------------------ -/

/-- C4. `start()` with no connected output sink reports the error
via the log, sends no messages, and performs no state transition: the
state is returned unchanged, so `isPlaying` stays `false` and the tick
counter and next-tick time keep their values. -/
theorem start_disconnected_noop (s : EngineState) (now pnow : ℚ) (rss : Nat → RandSrc)
    (fuel : Nat) (hm : s.midiOut = false) (hp : s.isPlaying = false) :
    (start s now pnow rss fuel).1 = s
    ∧ (start s now pnow rss fuel).2.msgs = []
    ∧ (start s now pnow rss fuel).2.logs = ["ERR: INIT MIDI FIRST"]
    ∧ (start s now pnow rss fuel).1.isPlaying = false
    ∧ (start s now pnow rss fuel).1.current16thNote = s.current16thNote
    ∧ (start s now pnow rss fuel).1.nextNoteTime = s.nextNoteTime := by
  have h : start s now pnow rss fuel = (s, { logs := ["ERR: INIT MIDI FIRST"] }) := by
    simp [start, hm]
  rw [h]
  exact ⟨rfl, rfl, rfl, hp, rfl, rfl⟩

/-- Witness for C4 at a concrete disconnected, stopped state. -/
theorem start_disconnected_noop_witness :
    (⟨false, true, false, 0, 0, false, 1/10, 120, 0, false, true, false, 4, []⟩ :
        EngineState).midiOut = false
    ∧ (⟨false, true, false, 0, 0, false, 1/10, 120, 0, false, true, false, 4, []⟩ :
        EngineState).isPlaying = false
    ∧ ((start ⟨false, true, false, 0, 0, false, 1/10, 120, 0, false, true, false, 4, []⟩
          0 0 (fun _ => ⟨0, fun _ _ => 0, fun _ _ => ⟨0, 0, 0, 0⟩, fun _ _ _ => 0⟩) 1).1
        = ⟨false, true, false, 0, 0, false, 1/10, 120, 0, false, true, false, 4, []⟩
      ∧ (start ⟨false, true, false, 0, 0, false, 1/10, 120, 0, false, true, false, 4, []⟩
          0 0 (fun _ => ⟨0, fun _ _ => 0, fun _ _ => ⟨0, 0, 0, 0⟩, fun _ _ _ => 0⟩) 1).2.msgs = []
      ∧ (start ⟨false, true, false, 0, 0, false, 1/10, 120, 0, false, true, false, 4, []⟩
          0 0 (fun _ => ⟨0, fun _ _ => 0, fun _ _ => ⟨0, 0, 0, 0⟩, fun _ _ _ => 0⟩) 1).2.logs
          = ["ERR: INIT MIDI FIRST"]
      ∧ (start ⟨false, true, false, 0, 0, false, 1/10, 120, 0, false, true, false, 4, []⟩
          0 0 (fun _ => ⟨0, fun _ _ => 0, fun _ _ => ⟨0, 0, 0, 0⟩, fun _ _ _ => 0⟩) 1).1.isPlaying
          = false
      ∧ (start ⟨false, true, false, 0, 0, false, 1/10, 120, 0, false, true, false, 4, []⟩
          0 0 (fun _ => ⟨0, fun _ _ => 0, fun _ _ => ⟨0, 0, 0, 0⟩, fun _ _ _ => 0⟩) 1).1.current16thNote
          = (⟨false, true, false, 0, 0, false, 1/10, 120, 0, false, true, false, 4, []⟩ :
              EngineState).current16thNote
      ∧ (start ⟨false, true, false, 0, 0, false, 1/10, 120, 0, false, true, false, 4, []⟩
          0 0 (fun _ => ⟨0, fun _ _ => 0, fun _ _ => ⟨0, 0, 0, 0⟩, fun _ _ _ => 0⟩) 1).1.nextNoteTime
          = (⟨false, true, false, 0, 0, false, 1/10, 120, 0, false, true, false, 4, []⟩ :
              EngineState).nextNoteTime) :=
  ⟨rfl, rfl, start_disconnected_noop _ 0 0 _ 1 rfl rfl⟩

/- ------------------------------------------------------------------ -/
/-  C5: the scheduler stops at globalBars × 16                         -/
/- ------------------------------------------------------------------ -/

/-- Every tick the scheduler loop passes to `scheduleNote` has index
strictly below `globalBars * 16`. -/
theorem schedulerLoop_ticks_lt (now pnow : ℚ) (rss : Nat → RandSrc) :
    ∀ (fuel : Nat) (s : EngineState),
      ∀ bt ∈ (schedulerLoop s now pnow rss fuel).2.ticks, bt.1 < s.globalBars * 16 := by
  intro fuel
  induction fuel with
  | zero =>
    intro s bt hbt
    simp [schedulerLoop] at hbt
  | succ n ih =>
    intro s bt hbt
    simp only [schedulerLoop] at hbt
    by_cases h1 : s.nextNoteTime < now + s.scheduleAheadTime
    · rw [if_pos h1] at hbt
      by_cases h2 : s.globalBars * 16 ≤ s.current16thNote
      · rw [if_pos h2] at hbt
        simp at hbt
      · rw [if_neg h2] at hbt
        simp only [List.mem_cons] at hbt
        rcases hbt with rfl | hbt
        · simpa using Nat.lt_of_not_le h2
        · have h3 := ih (advanceNote s) bt hbt
          simpa [advanceNote] using h3
    · rw [if_neg h1] at hbt
      simp at hbt

/-- C5. While Running, the scheduler never schedules a tick whose
index is ≥ `globalBars * 16`; and when the counter has reached
`globalBars * 16` (and the next tick time is inside the lookahead
window), the loop itself calls `stop` — the resulting state is no longer
playing — logs `COMPLETE`, and schedules no tick. -/
theorem scheduler_song_end (s : EngineState) (now pnow : ℚ) (rss : Nat → RandSrc) (fuel : Nat)
    (_hp : s.isPlaying = true) :
    (∀ bt ∈ (schedulerLoop s now pnow rss fuel).2.ticks, bt.1 < s.globalBars * 16)
    ∧ (s.globalBars * 16 ≤ s.current16thNote →
        s.nextNoteTime < now + s.scheduleAheadTime → 1 ≤ fuel →
        (schedulerLoop s now pnow rss fuel).1.isPlaying = false
        ∧ "COMPLETE" ∈ (schedulerLoop s now pnow rss fuel).2.logs
        ∧ (schedulerLoop s now pnow rss fuel).2.ticks = []) := by
  refine ⟨schedulerLoop_ticks_lt now pnow rss fuel s, ?_⟩
  intro hK hT hF
  obtain ⟨n, rfl⟩ : ∃ n, fuel = n + 1 := ⟨fuel - 1, by omega⟩
  simp only [schedulerLoop]
  rw [if_pos hT, if_pos hK]
  exact ⟨rfl, by simp, rfl⟩

/-- Witness for C5 at a playing state whose counter has reached
`globalBars * 16 = 64`. -/
theorem scheduler_song_end_witness :
    (⟨true, true, true, 0, 64, true, 1/10, 120, 0, false, true, false, 4, []⟩ :
        EngineState).isPlaying = true
    ∧ ((∀ bt ∈ (schedulerLoop
            ⟨true, true, true, 0, 64, true, 1/10, 120, 0, false, true, false, 4, []⟩ 0 0
            (fun _ => ⟨0, fun _ _ => 0, fun _ _ => ⟨0, 0, 0, 0⟩, fun _ _ _ => 0⟩) 1).2.ticks,
          bt.1 < (⟨true, true, true, 0, 64, true, 1/10, 120, 0, false, true, false, 4, []⟩ :
              EngineState).globalBars * 16)
      ∧ ((⟨true, true, true, 0, 64, true, 1/10, 120, 0, false, true, false, 4, []⟩ :
              EngineState).globalBars * 16
            ≤ (⟨true, true, true, 0, 64, true, 1/10, 120, 0, false, true, false, 4, []⟩ :
              EngineState).current16thNote →
          (⟨true, true, true, 0, 64, true, 1/10, 120, 0, false, true, false, 4, []⟩ :
              EngineState).nextNoteTime
            < 0 + (⟨true, true, true, 0, 64, true, 1/10, 120, 0, false, true, false, 4, []⟩ :
              EngineState).scheduleAheadTime → 1 ≤ 1 →
          (schedulerLoop ⟨true, true, true, 0, 64, true, 1/10, 120, 0, false, true, false, 4, []⟩
              0 0 (fun _ => ⟨0, fun _ _ => 0, fun _ _ => ⟨0, 0, 0, 0⟩, fun _ _ _ => 0⟩) 1).1.isPlaying
            = false
          ∧ "COMPLETE" ∈ (schedulerLoop
              ⟨true, true, true, 0, 64, true, 1/10, 120, 0, false, true, false, 4, []⟩
              0 0 (fun _ => ⟨0, fun _ _ => 0, fun _ _ => ⟨0, 0, 0, 0⟩, fun _ _ _ => 0⟩) 1).2.logs
          ∧ (schedulerLoop ⟨true, true, true, 0, 64, true, 1/10, 120, 0, false, true, false, 4, []⟩
              0 0 (fun _ => ⟨0, fun _ _ => 0, fun _ _ => ⟨0, 0, 0, 0⟩, fun _ _ _ => 0⟩) 1).2.ticks
            = [])) :=
  ⟨rfl, scheduler_song_end _ 0 0 _ 1 rfl⟩

/- ------------------------------------------------------------------ -/
/-  C6: the musical timestamp formula                                  -/
/- ------------------------------------------------------------------ -/

/-- C6. Every scheduled tick's musical timestamp is the nominal time
plus a swing offset of `((60/bpm)/4) * (swing/100)` exactly when the tick
index is odd (zero on even ticks), plus — when humanize is enabled — a
jitter `r * 0.015` seconds lying in `[0, 15]` milliseconds for every
uniform draw `r ∈ [0, 1)`. -/
theorem tick_timestamp_formula (time : ℚ) (beatNumber : Nat) (bpm swing : ℚ)
    (humanize : Bool) (r : ℚ) (h0 : 0 ≤ r) (h1 : r < 1) :
    exactTime time beatNumber bpm swing humanize r
      = time + (if beatNumber % 2 = 1 then ((60 / bpm) / 4) * (swing / 100) else 0)
          + (if humanize then r * 0.015 else 0)
    ∧ 0 ≤ (if humanize then r * 0.015 else 0)
    ∧ (if humanize then r * 0.015 else 0) ≤ 0.015 := by
  refine ⟨?_, ?_, ?_⟩
  · rcases Nat.mod_two_eq_zero_or_one beatNumber with h | h <;> simp [exactTime, h]
  · cases humanize
    · simp
    · simpa using mul_nonneg h0 (by norm_num : (0 : ℚ) ≤ 0.015)
  · cases humanize
    · simp
      norm_num
    · have h2 : r * 0.015 ≤ 1 * 0.015 :=
        mul_le_mul_of_nonneg_right (le_of_lt h1) (by norm_num)
      simpa using le_trans h2 (by norm_num)

/-- Witness for C6 at an odd tick with humanize on and draw `1/2`. -/
theorem tick_timestamp_formula_witness :
    0 ≤ (1/2 : ℚ) ∧ (1/2 : ℚ) < 1
    ∧ (exactTime 10 3 120 50 true (1/2)
        = 10 + (if 3 % 2 = 1 then ((60 / 120) / 4) * ((50 : ℚ) / 100) else 0)
            + (if true then (1/2 : ℚ) * 0.015 else 0)
      ∧ 0 ≤ (if true then (1/2 : ℚ) * 0.015 else 0)
      ∧ (if true then (1/2 : ℚ) * 0.015 else 0) ≤ 0.015) :=
  ⟨by norm_num, by norm_num, tick_timestamp_formula 10 3 120 50 true (1/2) (by norm_num) (by norm_num)⟩

/- ------------------------------------------------------------------ -/
/-  C7: six clock pulses per tick, unaffected by swing/humanize        -/
/- ------------------------------------------------------------------ -/

/-- Recognizes a clock-pulse message: the single byte `0xF8`. -/
def isClockPulse (m : MidiMsg) : Bool :=
  match m.bytes with
  | [b] => b == 0xF8
  | _ => false

/-- Note-on/off messages (3 bytes) are never clock pulses. -/
theorem sendMidiNote_no_pulse (c : Bool) (chan : Nat) (note vel : ℤ) (dur ts : ℚ) :
    ∀ m ∈ sendMidiNote c chan note vel dur ts, isClockPulse m = false := by
  cases c <;> simp [sendMidiNote, isClockPulse]

/-- Unfolding of `sendChord true`: the flux-perturbed, inverted, voiced
intervals, each emitted through `sendMidiNote`. -/
theorem sendChord_true (pad : Pad) (chan : Nat) (bv : ℤ) (ts : ℚ) (d : FluxDraws)
    (vr : Nat → ℚ) :
    sendChord true pad chan bv ts d vr
      = ((applyVoicing (applyInversion (getChordIntervals pad.chord.quality pad.chord.ext)
            (fluxStep pad.chord.flux pad.chord.inv
              ((pad.chord.oct + 1) * 12 + pad.chord.root) d).1)
          pad.chord.voice).enum).flatMap (fun q =>
            sendMidiNote true chan ((fluxStep pad.chord.flux pad.chord.inv
                ((pad.chord.oct + 1) * 12 + pad.chord.root) d).2 + q.2)
              (clamp (jsRound ((bv : ℚ)
                  + (vr q.1 - 1 / 2) * ((pad.chord.flux : ℚ) / 100) * 40)) 1 127)
              pad.gateMs
              (ts + (q.1 : ℚ) * (5 + ((pad.chord.flux : ℚ) / 100) * 20))) := rfl

/-- Chord emissions contain no clock pulses. -/
theorem sendChord_no_pulse (c : Bool) (pad : Pad) (chan : Nat) (bv : ℤ) (ts : ℚ)
    (d : FluxDraws) (vr : Nat → ℚ) :
    ∀ m ∈ sendChord c pad chan bv ts d vr, isClockPulse m = false := by
  cases c
  · simp [sendChord]
  · intro m hm
    rw [sendChord_true] at hm
    rcases List.mem_flatMap.1 hm with ⟨q, _, hmq⟩
    exact sendMidiNote_no_pulse true chan _ _ _ _ m hmq

/-- The pad loop of `scheduleNote` emits no clock pulses. -/
theorem padMsgs_no_pulse (s : EngineState) (rs : RandSrc) (beat : Nat) (mts : ℚ) :
    ∀ m ∈ padMsgs s rs beat mts, isClockPulse m = false := by
  intro m hm
  simp only [padMsgs] at hm
  rcases List.mem_flatMap.1 hm with ⟨g, _, hm2⟩
  rcases List.mem_flatMap.1 hm2 with ⟨p, _, hm3⟩
  split at hm3
  · simp at hm3
  · split at hm3
    · exact sendChord_no_pulse s.midiOut _ g _ _ _ _ m hm3
    · exact sendMidiNote_no_pulse s.midiOut g _ _ _ _ m hm3

/-- Every message of `clockPulses` is a clock pulse. -/
theorem clockPulses_all_pulse (bpm time pnow anow : ℚ) :
    ∀ m ∈ clockPulses bpm time pnow anow, isClockPulse m = true := by
  intro m hm
  simp only [clockPulses, List.mem_map] at hm
  rcases hm with ⟨i, _, rfl⟩
  rfl

/-- C7. For every scheduled tick with a connected sink, exactly the
6 clock-pulse messages `0xF8` are emitted, the `i`-th timestamped at the
nominal tick time plus `i * (secondsPer16th / 6)` (translated into the
sink's time domain), where `secondsPer16th = (60/bpm) * 0.25`; the pulse
trace is the same for every swing, humanize and random-draw setting,
since none of them occur in it. -/
theorem clock_pulses_exact (s : EngineState) (rs : RandSrc) (beatNumber : Nat)
    (time pnow anow : ℚ) (hc : s.midiOut = true) :
    (scheduleNote s rs beatNumber time pnow anow).filter (fun m => isClockPulse m)
      = (List.range 6).map (fun i =>
          ⟨[0xF8], some (pnow + ((time + (i : ℚ) * (((60 / s.bpm) * 0.25) / 6)) - anow) * 1000)⟩) := by
  simp only [scheduleNote]
  rw [if_pos hc, List.filter_append,
    List.filter_eq_self.mpr (clockPulses_all_pulse s.bpm time pnow anow),
    List.filter_eq_nil_iff.mpr
      (fun m hm => by simp [padMsgs_no_pulse s rs beatNumber _ m hm]),
    List.append_nil]
  rfl

/-- Witness for C7 at a concrete connected state and tick 0. -/
theorem clock_pulses_exact_witness :
    (⟨true, true, true, 0, 0, true, 1/10, 120, 0, false, true, false, 4, []⟩ :
        EngineState).midiOut = true
    ∧ (scheduleNote ⟨true, true, true, 0, 0, true, 1/10, 120, 0, false, true, false, 4, []⟩
          ⟨0, fun _ _ => 0, fun _ _ => ⟨0, 0, 0, 0⟩, fun _ _ _ => 0⟩ 0 0 0 0).filter
        (fun m => isClockPulse m)
      = (List.range 6).map (fun i =>
          ⟨[0xF8], some ((0 : ℚ) + ((0 + (i : ℚ)
              * (((60 / (⟨true, true, true, 0, 0, true, 1/10, 120, 0, false, true, false, 4, []⟩ :
                  EngineState).bpm) * 0.25) / 6)) - 0) * 1000)⟩) :=
  ⟨rfl, clock_pulses_exact _ _ 0 0 0 0 rfl⟩

end Engine
